import Mathlib

/-!
Verification of the Mahoraga signal-to-decision engine and its dashboard.

The repository ships the dashboard source (src/dashboard/src/App.tsx); the
signal-to-decision core (SignalAggregator, AlphaScanner, ConfidenceComposer,
PositionLifecycleManager) is described by the specification but its source is
not part of the repository snapshot, so those components are modelled from
the specification text and marked as such in their doc comments. Dashboard
definitions are translated directly from App.tsx, with line references.
-/

namespace Mahoraga

/-- Embedding of the `clamp` helper from App.tsx lines 143-145:
`Math.max(min, Math.min(max, value))`. Generic over any linear order so the
same definition serves the integer layout spans and the rational scores. -/
def clamp {α : Type _} [LinearOrder α] (value lo hi : α) : α :=
  max lo (min hi value)

/-- Embedding of the `LayoutItem` type from App.tsx lines 120-128. Spans are
integers in the source (panel grid units). -/
structure LayoutItem where
  id : String
  colSpan : Int
  rowSpan : Int
  minColSpan : Int
  maxColSpan : Int
  minRowSpan : Int
  maxRowSpan : Int
deriving DecidableEq

/-- Embedding of `DEFAULT_LAYOUT` from App.tsx lines 132-141. -/
def DEFAULT_LAYOUT : List LayoutItem :=
  [⟨"account", 3, 3, 2, 6, 2, 6⟩,
   ⟨"positions", 5, 3, 3, 8, 2, 6⟩,
   ⟨"llm_costs", 4, 3, 2, 6, 2, 6⟩,
   ⟨"portfolio", 8, 3, 4, 12, 2, 6⟩,
   ⟨"position_perf", 4, 3, 3, 8, 2, 6⟩,
   ⟨"active_signals", 4, 3, 3, 6, 2, 6⟩,
   ⟨"activity_feed", 4, 3, 3, 6, 2, 6⟩,
   ⟨"signal_research", 4, 3, 3, 6, 2, 6⟩]

/-- Body of the `DEFAULT_LAYOUT.map` callback inside `normalizeLayout`
(App.tsx lines 149-158): look up the stored entry with the same id; if found,
spread it over the default item (the stored entry has every field, so the
merge yields the stored entry) and clamp both spans to the merged bounds. -/
def normalizeItem (stored : List LayoutItem) (item : LayoutItem) : LayoutItem :=
  match stored.find? (fun entry => entry.id == item.id) with
  | none => item
  | some m =>
      { m with
        colSpan := clamp m.colSpan m.minColSpan m.maxColSpan,
        rowSpan := clamp m.rowSpan m.minRowSpan m.maxRowSpan }

/-- Embedding of `normalizeLayout` from App.tsx lines 147-159. -/
def normalizeLayout (layout : Option (List LayoutItem)) : List LayoutItem :=
  match layout with
  | none => DEFAULT_LAYOUT
  | some stored =>
      if stored.isEmpty then DEFAULT_LAYOUT
      else DEFAULT_LAYOUT.map (normalizeItem stored)

/-- Body of the `prev.map` callback inside `resizePanel` (App.tsx lines
339-344): items with a different id are returned unchanged; the matching item
has both spans moved by the deltas and clamped to its own bounds. -/
def resizeItem (pid : String) (deltaCols deltaRows : Int) (item : LayoutItem) : LayoutItem :=
  if item.id ≠ pid then item
  else
    { item with
      colSpan := clamp (item.colSpan + deltaCols) item.minColSpan item.maxColSpan,
      rowSpan := clamp (item.rowSpan + deltaRows) item.minRowSpan item.maxRowSpan }

/-- Embedding of `resizePanel` from App.tsx lines 337-346 (the pure update
applied to the previous layout state). -/
def resizePanel (layout : List LayoutItem) (pid : String) (deltaCols deltaRows : Int) : List LayoutItem :=
  layout.map (resizeItem pid deltaCols deltaRows)

/-- Substring test used to embed the TypeScript `String.prototype.includes`
calls: `pat` occurs in `s` iff splitting on `pat` yields at least two pieces. -/
def strIncludes (s pat : String) : Bool :=
  2 ≤ (s.splitOn pat).length

/-- Embedding of the `Signal` shape as used by App.tsx (fields dereferenced
by `isOptionsSignal` and the signal panels). -/
structure Signal where
  symbol : String
  source : String
  source_detail : Option String
  reason : Option String
  subreddits : Option (List String)
  isCrypto : Bool
  sentiment : ℚ
  volume : Int
  momentum : Option ℚ
deriving DecidableEq

/-- Embedding of `isOptionsSignal` from App.tsx lines 82-94: crypto signals
are never options; otherwise the lowercased source, source detail, reason and
subreddit names are searched for the substring "options". -/
def isOptionsSignal (sig : Signal) : Bool :=
  if sig.isCrypto then false
  else
    let source := sig.source.toLower
    let detail := (sig.source_detail.getD "").toLower
    let reason := (sig.reason.getD "").toLower
    let subs := (sig.subreddits.getD []).map String.toLower
    if strIncludes source "options" then true
    else if strIncludes detail "options" then true
    else if strIncludes reason "options" then true
    else if subs.any (fun sub => strIncludes sub "options") then true
    else false

/-- Embedding of the `crypto` view from App.tsx line 421. -/
def cryptoSignals (signals : List Signal) : List Signal :=
  signals.filter (fun sig => sig.isCrypto)

/-- Embedding of the `options` view from App.tsx line 422. -/
def optionsSignals (signals : List Signal) : List Signal :=
  signals.filter (fun sig => !sig.isCrypto && isOptionsSignal sig)

/-- Embedding of the `stocks` view from App.tsx line 423. -/
def stockSignals (signals : List Signal) : List Signal :=
  signals.filter (fun sig => !sig.isCrypto && !isOptionsSignal sig)

/-- Field names the dashboard dereferences on the status snapshot object,
reified from App.tsx: lines 386-392 (`account`, `positions`, `signals`,
`logs`, `costs`, `config`, `clock`), line 427 (`cryptoUniverse`), lines
538-539 (`positionEntries`, `stalenessAnalysis`), line 1005
(`signalResearch`), and lines 1153-1154 (`overnightActivity`,
`premarketPlan`). -/
def statusFieldsRead : List String :=
  ["account", "positions", "signals", "logs", "costs", "config", "clock",
   "cryptoUniverse", "positionEntries", "stalenessAnalysis", "signalResearch",
   "overnightActivity", "premarketPlan"]

/-- Snapshot field names exactly as the specification words them (section 6):
a per-cycle snapshot of signals, alphaScan, positionEntries,
stalenessAnalysis and costSummary. Kept separate from `statusFieldsRead` so
the two can be compared. -/
def specSnapshotFields : List String :=
  ["signals", "alphaScan", "positionEntries", "stalenessAnalysis", "costSummary"]

/-- Modelled from the spec: the `StalenessScore` record of section 3
(`score`, `isStale`, `reason`). The staleness computation lives in the
engine core, which is not part of the repository snapshot. -/
structure StalenessScore where
  score : ℚ
  isStale : Bool
  reason : String
deriving DecidableEq

/-- Modelled from the spec: the staleness time component (max 40) of section
4.4 — zero before the minimum hold time, then a linear interpolation between
the mid hold duration and the max hold duration, saturating at the max
duration (expressed by clamping the interpolant to the 0..40 range). -/
def stalenessTimeComponent (heldHours minHoldHours midHoldHours maxHoldHours : ℚ) : ℚ :=
  if heldHours < minHoldHours then 0
  else clamp (40 * (heldHours - midHoldHours) / (maxHoldHours - midHoldHours)) 0 40

/-- Modelled from the spec: the price-action component (max 30) of section
4.4 — losing positions accrue `min 30 (|pnlPct| * 3)`; flat or
insufficient-gain positions past the mid hold duration accrue a fixed
penalty, capped at the component maximum of 30. -/
def stalenessPriceComponent (pnlPct heldHours midHoldHours minGainPct flatPenalty : ℚ) : ℚ :=
  if pnlPct < 0 then min 30 (|pnlPct| * 3)
  else if midHoldHours < heldHours ∧ pnlPct < minGainPct then clamp flatPenalty 0 30
  else 0

/-- Modelled from the spec: the social-volume-decay component (max 30) of
section 4.4 — a current-to-entry volume ratio below the strict decay
threshold accrues the full 30, below the looser threshold half of it. -/
def stalenessVolumeComponent (volumeRatio strictThreshold looseThreshold : ℚ) : ℚ :=
  if volumeRatio < strictThreshold then 30
  else if volumeRatio < looseThreshold then 15
  else 0

/-- Modelled from the spec: the total staleness score is the sum of the
three additive components. -/
def stalenessScoreValue (heldHours minHoldHours midHoldHours maxHoldHours
    pnlPct minGainPct flatPenalty volumeRatio strictThreshold looseThreshold : ℚ) : ℚ :=
  stalenessTimeComponent heldHours minHoldHours midHoldHours maxHoldHours +
  stalenessPriceComponent pnlPct heldHours midHoldHours minGainPct flatPenalty +
  stalenessVolumeComponent volumeRatio strictThreshold looseThreshold

/-- Modelled from the spec: the `StalenessScore` produced by an analyst pass
— the total score together with the staleness flag (total reaches 70, or the
position is held past the maximum duration with gain below the minimum that
justifies holding further). -/
def mkStalenessScore (heldHours minHoldHours midHoldHours maxHoldHours
    pnlPct minGainPct flatPenalty volumeRatio strictThreshold looseThreshold : ℚ) : StalenessScore :=
  let s := stalenessScoreValue heldHours minHoldHours midHoldHours maxHoldHours
    pnlPct minGainPct flatPenalty volumeRatio strictThreshold looseThreshold
  { score := s,
    isStale := decide (70 ≤ s) || (decide (maxHoldHours < heldHours) && decide (pnlPct < minGainPct)),
    reason := "" }

/-- Modelled from the spec: the `PositionEntry` record of section 3. -/
structure PositionEntry where
  entryTime : ℚ
  entryPrice : ℚ
  entrySentiment : ℚ
  entrySocialVolume : ℚ
  entrySources : List String
  entryReason : String
  peakPrice : ℚ
  peakSentiment : ℚ
deriving DecidableEq

/-- The position table: one entry per held symbol, keyed by symbol. -/
abbrev PositionTable := List (String × PositionEntry)

/-- Keys (symbols) of a position table. -/
def tableKeys (table : PositionTable) : List String :=
  table.map Prod.fst

/-- Lookup of the entry held for a symbol. -/
def lookupEntry (sym : String) (table : PositionTable) : Option (String × PositionEntry) :=
  table.find? (fun kv => kv.fst == sym)

/-- Modelled from the spec: a `PositionEntry` is created exactly once when a
BUY decision results in a filled order — creation is a no-op when the symbol
is already held. -/
def openPosition (sym : String) (entry : PositionEntry) (table : PositionTable) : PositionTable :=
  match lookupEntry sym table with
  | some _ => table
  | none => (sym, entry) :: table

/-- Modelled from the spec: a `PositionEntry` is mutated only to update peak
tracking. -/
def updatePeak (sym : String) (price sentiment : ℚ) (table : PositionTable) : PositionTable :=
  table.map (fun kv =>
    if kv.fst == sym then (kv.fst, { kv.snd with peakPrice := price, peakSentiment := sentiment })
    else kv)

/-- Modelled from the spec: closing a position (any exit path or manual
close) deletes the entry for that symbol. -/
def closePosition (sym : String) (table : PositionTable) : PositionTable :=
  table.filter (fun kv => kv.fst != sym)

/-- Modelled from the spec: one mutation step of the position table — entry
creation, peak tracking, or a close. -/
inductive PositionStep : PositionTable → PositionTable → Prop
  | enter (sym : String) (entry : PositionEntry) (table : PositionTable) :
      PositionStep table (openPosition sym entry table)
  | peak (sym : String) (price sentiment : ℚ) (table : PositionTable) :
      PositionStep table (updatePeak sym price sentiment table)
  | close (sym : String) (table : PositionTable) :
      PositionStep table (closePosition sym table)

/-- Position tables reachable from the empty table by lifecycle steps. -/
inductive ReachableTable : PositionTable → Prop
  | init : ReachableTable []
  | step {table table' : PositionTable} :
      ReachableTable table → PositionStep table table' → ReachableTable table'

/-- Modelled from the spec: the per-symbol lifecycle states NONE and HELD of
section 4.4 (EXITING is never persisted). -/
inductive PositionStatus
  | NONE
  | HELD
deriving DecidableEq

/-- Modelled from the spec: the per-symbol cached state owned by the engine
— position entries, staleness values and social history. -/
structure EngineState where
  positionEntries : PositionTable
  stalenessCache : List (String × StalenessScore)
  socialHistory : List (String × List ℚ)
deriving DecidableEq

/-- A symbol is HELD exactly when its position entry exists. -/
def positionStatus (st : EngineState) (sym : String) : PositionStatus :=
  match lookupEntry sym st.positionEntries with
  | some _ => PositionStatus.HELD
  | none => PositionStatus.NONE

/-- Modelled from the spec: exit cleanup removes all per-symbol cached state
(entry, staleness, social history). -/
def cleanupSymbol (sym : String) (st : EngineState) : EngineState :=
  { positionEntries := st.positionEntries.filter (fun kv => kv.fst != sym),
    stalenessCache := st.stalenessCache.filter (fun kv => kv.fst != sym),
    socialHistory := st.socialHistory.filter (fun kv => kv.fst != sym) }

/-- Modelled from the spec: cleanup happens atomically with the success of
the brokerage close call; a failed close removes nothing. -/
def attemptExit (closeSucceeded : Bool) (sym : String) (st : EngineState) : EngineState :=
  if closeSucceeded then cleanupSymbol sym st else st

/-- Modelled from the spec: non-crypto implied probability of section 4.2 —
`clamp (0.5 + clamp (dailyReturn / (2 * avgAbsReturn)) (-0.5) 0.5) 0 1`. -/
def impliedProbStock (dailyReturn avgAbsReturn : ℚ) : ℚ :=
  clamp (1/2 + clamp (dailyReturn / (2 * avgAbsReturn)) (-(1/2)) (1/2)) 0 1

/-- Modelled from the spec: non-crypto calculated probability of section 4.2
— the clamped mean sentiment, blended 60/40 with the fraction of up-days
over the trailing window when that history is available. -/
def calculatedProbStock (sentimentAvg : ℚ) (upDayFraction : Option ℚ) : ℚ :=
  let base := clamp sentimentAvg 0 1
  match upDayFraction with
  | none => base
  | some f => 3/5 * base + 2/5 * f

/-- Modelled from the spec: crypto momentum probability of section 4.2 —
`clamp (0.5 + clamp (momentumAvg / 10) (-0.4) 0.4) 0 1`. -/
def momentumProbCrypto (momentumAvg : ℚ) : ℚ :=
  clamp (1/2 + clamp (momentumAvg / 10) (-(2/5)) (2/5)) 0 1

/-- Modelled from the spec: crypto calculated probability of section 4.2 —
`0.7 * momentumProb + 0.3 * sentimentProb`, the sentiment term being the
clamped mean sentiment as in the non-crypto path. -/
def calculatedProbCrypto (momentumAvg sentimentAvg : ℚ) : ℚ :=
  7/10 * momentumProbCrypto momentumAvg + 3/10 * clamp sentimentAvg 0 1

/-- Modelled from the spec: the `AlphaCandidate` record of section 3. -/
structure AlphaCandidate where
  symbol : String
  isCrypto : Bool
  impliedProb : ℚ
  calculatedProb : ℚ
  alpha : ℚ
deriving DecidableEq

/-- Modelled from the spec: construction of an `AlphaCandidate` by the
AlphaScanner — crypto symbols use the 0.5 implied baseline and the
momentum/sentiment blend, non-crypto symbols the price-action model; in both
cases `alpha = calculatedProb - impliedProb`. -/
def mkAlphaCandidate (symbol : String) (isCrypto : Bool)
    (sentimentAvg momentumAvg dailyReturn avgAbsReturn : ℚ)
    (upDayFraction : Option ℚ) : AlphaCandidate :=
  let implied := if isCrypto then 1/2 else impliedProbStock dailyReturn avgAbsReturn
  let calcProb :=
    if isCrypto then calculatedProbCrypto momentumAvg sentimentAvg
    else calculatedProbStock sentimentAvg upDayFraction
  { symbol := symbol, isCrypto := isCrypto, impliedProb := implied,
    calculatedProb := calcProb, alpha := calcProb - implied }

/-- Modelled from the spec: the judge verdict alternatives of section 3. -/
inductive Verdict
  | BUY
  | SKIP
  | WAIT
deriving DecidableEq

/-- Modelled from the spec: the `ResearchVerdict` record of section 3
(fields not consumed by the composer are omitted). -/
structure ResearchVerdict where
  symbol : String
  verdict : Verdict
  confidence : ℚ
deriving DecidableEq

/-- Modelled from the spec: the `ConfirmationResult` record of section 3
(fields not consumed by the composer are omitted). -/
structure ConfirmationResult where
  sentiment : ℚ
  confirmsExisting : Bool
deriving DecidableEq

/-- Modelled from the spec: the go/no-go outcome of the ConfidenceComposer. -/
inductive ComposeDecision
  | veto
  | go (confidence : ℚ)
deriving DecidableEq

/-- Modelled from the spec: the social confirmation adjustment of section
4.3 — agreement multiplies the confidence by 1.15 capped at 1, an active
non-zero disagreement (opposite sign to the existing sentiment) multiplies
it by 0.85. -/
def socialAdjust (c : ℚ) (confirmation : Option ConfirmationResult) (existingSentiment : ℚ) : ℚ :=
  match confirmation with
  | none => c
  | some conf =>
      if conf.confirmsExisting then min 1 (c * (23/20))
      else if conf.sentiment ≠ 0 ∧ conf.sentiment * existingSentiment < 0 then c * (17/20)
      else c

/-- Modelled from the spec: the ConfidenceComposer of section 4.3. A judge
verdict that exists and is not BUY vetoes the symbol regardless of the other
inputs; otherwise alpha and judge confidences are blended 60/40, a lone
alpha confidence is taken as is, and with neither the heuristic fallback
confidence is used; the social adjustment is applied to every composed
value. -/
def composeConfidence (judge : Option ResearchVerdict) (alphaConfidence : Option ℚ)
    (heuristicConfidence : Option ℚ) (confirmation : Option ConfirmationResult)
    (existingSentiment : ℚ) : ComposeDecision :=
  match judge with
  | some v =>
      if v.verdict ≠ Verdict.BUY then ComposeDecision.veto
      else
        let base :=
          match alphaConfidence with
          | some a => 3/5 * a + 2/5 * v.confidence
          | none => v.confidence
        ComposeDecision.go (socialAdjust base confirmation existingSentiment)
  | none =>
      match alphaConfidence with
      | some a => ComposeDecision.go (socialAdjust a confirmation existingSentiment)
      | none =>
          match heuristicConfidence with
          | some h => ComposeDecision.go (socialAdjust h confirmation existingSentiment)
          | none => ComposeDecision.veto

/-- Modelled from the spec: the SignalAggregator time-decay weight of
section 4.1 — `clamp (0.5 ^ (ageMinutes / halfLife)) 0.2 1`, an exponential
half-life in minutes with a floor of 0.2. Real-valued because the exponent
is a real ratio. -/
noncomputable def timeDecay (ageMinutes halfLife : ℝ) : ℝ :=
  clamp ((1/2 : ℝ) ^ (ageMinutes / halfLife)) (1/5) 1

/-- Clamping never goes below the lower bound. -/
theorem le_clamp {α : Type _} [LinearOrder α] (value lo hi : α) : lo ≤ clamp value lo hi :=
  le_max_left _ _

/-- Clamping never exceeds the upper bound when the bounds are ordered. -/
theorem clamp_le {α : Type _} [LinearOrder α] (value lo hi : α) (h : lo ≤ hi) :
    clamp value lo hi ≤ hi :=
  max_le h (min_le_left _ _)

/-- The time component always lies in the 0..40 range. -/
theorem stalenessTimeComponent_bounds (heldHours minHoldHours midHoldHours maxHoldHours : ℚ) :
    0 ≤ stalenessTimeComponent heldHours minHoldHours midHoldHours maxHoldHours ∧
    stalenessTimeComponent heldHours minHoldHours midHoldHours maxHoldHours ≤ 40 := by
  unfold stalenessTimeComponent
  split
  · norm_num
  · exact ⟨le_clamp _ _ _, clamp_le _ _ _ (by norm_num)⟩

/-- The price-action component always lies in the 0..30 range. -/
theorem stalenessPriceComponent_bounds (pnlPct heldHours midHoldHours minGainPct flatPenalty : ℚ) :
    0 ≤ stalenessPriceComponent pnlPct heldHours midHoldHours minGainPct flatPenalty ∧
    stalenessPriceComponent pnlPct heldHours midHoldHours minGainPct flatPenalty ≤ 30 := by
  unfold stalenessPriceComponent
  split
  · exact ⟨le_min (by norm_num) (mul_nonneg (abs_nonneg _) (by norm_num)), min_le_left _ _⟩
  · split
    · exact ⟨le_clamp _ _ _, clamp_le _ _ _ (by norm_num)⟩
    · norm_num

/-- The social-volume-decay component always lies in the 0..30 range. -/
theorem stalenessVolumeComponent_bounds (volumeRatio strictThreshold looseThreshold : ℚ) :
    0 ≤ stalenessVolumeComponent volumeRatio strictThreshold looseThreshold ∧
    stalenessVolumeComponent volumeRatio strictThreshold looseThreshold ≤ 30 := by
  unfold stalenessVolumeComponent
  split
  · norm_num
  · split <;> norm_num

/-- C1: every `StalenessScore` the analyst pass produces has its score field
in the interval [0, 100] — the three additive components are individually
capped (40, 30 and 30) so their total is capped at 100; in particular the
value published for any symbol in the status snapshot staleness analysis is
in [0, 100]. -/
theorem C1_staleness_score_in_range (heldHours minHoldHours midHoldHours maxHoldHours
    pnlPct minGainPct flatPenalty volumeRatio strictThreshold looseThreshold : ℚ) :
    0 ≤ (mkStalenessScore heldHours minHoldHours midHoldHours maxHoldHours
          pnlPct minGainPct flatPenalty volumeRatio strictThreshold looseThreshold).score ∧
    (mkStalenessScore heldHours minHoldHours midHoldHours maxHoldHours
          pnlPct minGainPct flatPenalty volumeRatio strictThreshold looseThreshold).score ≤ 100 := by
  have ht := stalenessTimeComponent_bounds heldHours minHoldHours midHoldHours maxHoldHours
  have hp := stalenessPriceComponent_bounds pnlPct heldHours midHoldHours minGainPct flatPenalty
  have hv := stalenessVolumeComponent_bounds volumeRatio strictThreshold looseThreshold
  have hs : (mkStalenessScore heldHours minHoldHours midHoldHours maxHoldHours
      pnlPct minGainPct flatPenalty volumeRatio strictThreshold looseThreshold).score =
      stalenessTimeComponent heldHours minHoldHours midHoldHours maxHoldHours +
      stalenessPriceComponent pnlPct heldHours midHoldHours minGainPct flatPenalty +
      stalenessVolumeComponent volumeRatio strictThreshold looseThreshold := rfl
  rw [hs]
  exact ⟨by linarith [ht.1, hp.1, hv.1], by linarith [ht.2, hp.2, hv.2]⟩

/-- C2 counterexample: the status snapshot the dashboard consumes does not
carry its cost summary under the name `costSummary` (it is read as `costs`
at App.tsx line 390), no consumer reads an `alphaScan` field, and the
snapshot carries fields (such as `account`) outside the claimed five, so the
snapshot does not consist of exactly the five claimed field names. -/
theorem C2_snapshot_fields_counterexample :
    "costs" ∈ statusFieldsRead ∧ "costs" ∉ specSnapshotFields ∧
    "costSummary" ∉ statusFieldsRead ∧ "alphaScan" ∉ statusFieldsRead ∧
    "account" ∈ statusFieldsRead ∧ "account" ∉ specSnapshotFields := by
  decide

/-- C2 (amended): the status snapshot consumed by the dashboard exposes
`signals`, `positionEntries` and `stalenessAnalysis` under the claimed
names, exposes the cost summary under the name `costs` rather than
`costSummary`, exposes no `alphaScan` field to its consumer, and also
carries `account`, `positions`, `logs`, `config` and `clock`. -/
theorem C2_snapshot_fields_amended :
    "signals" ∈ statusFieldsRead ∧ "positionEntries" ∈ statusFieldsRead ∧
    "stalenessAnalysis" ∈ statusFieldsRead ∧ "costs" ∈ statusFieldsRead ∧
    "costSummary" ∉ statusFieldsRead ∧ "alphaScan" ∉ statusFieldsRead ∧
    "account" ∈ statusFieldsRead ∧ "positions" ∈ statusFieldsRead ∧
    "logs" ∈ statusFieldsRead ∧ "config" ∈ statusFieldsRead ∧
    "clock" ∈ statusFieldsRead := by
  decide

/-- Keys of a table stay duplicate-free when a position is opened. -/
theorem keysNodup_openPosition (sym : String) (entry : PositionEntry) (table : PositionTable)
    (h : (tableKeys table).Nodup) : (tableKeys (openPosition sym entry table)).Nodup := by
  unfold openPosition
  cases hf : lookupEntry sym table with
  | some kv => exact h
  | none =>
      have hnot : sym ∉ tableKeys table := by
        intro hmem
        rcases List.mem_map.1 hmem with ⟨kv, hkv, hfst⟩
        have hno := List.find?_eq_none.1 hf kv hkv
        exact hno (by simp [hfst])
      simpa [tableKeys] using And.intro hnot h

/-- Updating peak tracking never changes the key list. -/
theorem tableKeys_updatePeak (sym : String) (price sentiment : ℚ) (table : PositionTable) :
    tableKeys (updatePeak sym price sentiment table) = tableKeys table := by
  unfold tableKeys updatePeak
  rw [List.map_map]
  refine List.map_congr_left fun kv _ => ?_
  by_cases hk : kv.fst = sym <;> simp [hk]

/-- Keys of a table stay duplicate-free when a position is closed. -/
theorem keysNodup_closePosition (sym : String) (table : PositionTable)
    (h : (tableKeys table).Nodup) : (tableKeys (closePosition sym table)).Nodup := by
  unfold closePosition tableKeys
  exact h.sublist ((List.filter_sublist table).map Prod.fst)

/-- After a close, the closed symbol has no entry. -/
theorem lookupEntry_closePosition_self (sym : String) (table : PositionTable) :
    lookupEntry sym (closePosition sym table) = none := by
  unfold lookupEntry closePosition
  refine List.find?_eq_none.2 fun kv hkv => ?_
  have hne := (List.mem_filter.1 hkv).2
  simp only [bne_iff_ne, ne_eq] at hne
  simp [hne]

/-- A close leaves the entry of every other symbol untouched. -/
theorem lookupEntry_closePosition_other (sym other : String) (table : PositionTable)
    (h : other ≠ sym) :
    lookupEntry other (closePosition sym table) = lookupEntry other table := by
  unfold lookupEntry closePosition
  induction table with
  | nil => rfl
  | cons kv rest ih =>
      by_cases hk : kv.fst = sym
      · have h1 : (kv.fst != sym) = false := by simp [hk]
        have h2 : (kv.fst == other) = false := by
          simp only [beq_eq_false_iff_ne, ne_eq, hk]
          exact fun hh => h hh.symm
        simp [List.filter, h1, List.find?, h2, ih]
      · have h1 : (kv.fst != sym) = true := by simp [hk]
        by_cases ho : kv.fst = other
        · have h3 : (other != sym) = true := by simp [h]
          simp [List.filter, List.find?, h1, ho, h3]
        · have h2 : (kv.fst == other) = false := by simp [ho]
          simp [List.filter, h1, List.find?, h2, ih]

/-- C3: at every reachable state the position table holds at most one entry
per symbol (its key list is duplicate-free), and closing a position removes
exactly that symbol (its lookup becomes empty) while the lookup of every
other symbol is unchanged. -/
theorem C3_unique_entries_and_close_exact (table : PositionTable)
    (h : ReachableTable table) :
    (tableKeys table).Nodup ∧
    ∀ sym : String,
      lookupEntry sym (closePosition sym table) = none ∧
      ∀ other : String, other ≠ sym →
        lookupEntry other (closePosition sym table) = lookupEntry other table := by
  refine ⟨?_, fun sym =>
    ⟨lookupEntry_closePosition_self sym table,
     fun other ho => lookupEntry_closePosition_other sym other table ho⟩⟩
  induction h with
  | init => simp [tableKeys]
  | step hreach hstep ih =>
      cases hstep with
      | enter sym entry => exact keysNodup_openPosition _ _ _ ih
      | peak sym price sentiment => rw [tableKeys_updatePeak]; exact ih
      | close sym => exact keysNodup_closePosition _ _ ih

/-- C3 witness: a concrete reachable one-entry table satisfies the
invariant and the exact-removal property. -/
theorem C3_witness :
    ReachableTable (openPosition "AAPL" ⟨0, 0, 0, 0, [], "", 0, 0⟩ []) ∧
    ((tableKeys (openPosition "AAPL" ⟨0, 0, 0, 0, [], "", 0, 0⟩ [])).Nodup ∧
     ∀ sym : String,
       lookupEntry sym (closePosition sym (openPosition "AAPL" ⟨0, 0, 0, 0, [], "", 0, 0⟩ [])) = none ∧
       ∀ other : String, other ≠ sym →
         lookupEntry other (closePosition sym (openPosition "AAPL" ⟨0, 0, 0, 0, [], "", 0, 0⟩ [])) =
           lookupEntry other (openPosition "AAPL" ⟨0, 0, 0, 0, [], "", 0, 0⟩ [])) :=
  have h : ReachableTable (openPosition "AAPL" ⟨0, 0, 0, 0, [], "", 0, 0⟩ []) :=
    ReachableTable.step ReachableTable.init (PositionStep.enter "AAPL" ⟨0, 0, 0, 0, [], "", 0, 0⟩ [])
  ⟨h, C3_unique_entries_and_close_exact _ h⟩

/-- C4: a failed brokerage close removes none of the per-symbol cached
state — the state after the failed exit attempt equals the state before it,
and the position is still HELD. -/
theorem C4_failed_close_preserves_state (st : EngineState) (sym : String)
    (hheld : positionStatus st sym = PositionStatus.HELD) :
    attemptExit false sym st = st ∧
    positionStatus (attemptExit false sym st) sym = PositionStatus.HELD :=
  ⟨rfl, hheld⟩

/-- C4 witness: a concrete held position survives a failed exit attempt
unchanged. -/
theorem C4_witness :
    positionStatus ⟨[("AAPL", ⟨0, 0, 0, 0, [], "", 0, 0⟩)], [], []⟩ "AAPL" = PositionStatus.HELD ∧
    (attemptExit false "AAPL" ⟨[("AAPL", ⟨0, 0, 0, 0, [], "", 0, 0⟩)], [], []⟩ =
       ⟨[("AAPL", ⟨0, 0, 0, 0, [], "", 0, 0⟩)], [], []⟩ ∧
     positionStatus (attemptExit false "AAPL" ⟨[("AAPL", ⟨0, 0, 0, 0, [], "", 0, 0⟩)], [], []⟩) "AAPL" =
       PositionStatus.HELD) :=
  ⟨rfl, C4_failed_close_preserves_state ⟨[("AAPL", ⟨0, 0, 0, 0, [], "", 0, 0⟩)], [], []⟩ "AAPL" rfl⟩

/-- The non-crypto implied probability is clamped into [0, 1]. -/
theorem impliedProbStock_mem (dailyReturn avgAbsReturn : ℚ) :
    0 ≤ impliedProbStock dailyReturn avgAbsReturn ∧ impliedProbStock dailyReturn avgAbsReturn ≤ 1 :=
  ⟨le_clamp _ _ _, clamp_le _ _ _ (by norm_num)⟩

/-- The non-crypto calculated probability lies in [0, 1] whenever the
up-day fraction does. -/
theorem calculatedProbStock_mem (sentimentAvg : ℚ) (upDayFraction : Option ℚ)
    (hf : ∀ f ∈ upDayFraction, 0 ≤ f ∧ f ≤ 1) :
    0 ≤ calculatedProbStock sentimentAvg upDayFraction ∧
    calculatedProbStock sentimentAvg upDayFraction ≤ 1 := by
  have hb1 : (0 : ℚ) ≤ clamp sentimentAvg 0 1 := le_clamp _ _ _
  have hb2 : clamp sentimentAvg 0 1 ≤ 1 := clamp_le _ _ _ (by norm_num)
  unfold calculatedProbStock
  cases upDayFraction with
  | none => exact ⟨hb1, hb2⟩
  | some f =>
      have hff := hf f rfl
      exact ⟨by nlinarith [hff.1, hff.2], by nlinarith [hff.1, hff.2]⟩

/-- The crypto calculated probability lies in [0, 1]. -/
theorem calculatedProbCrypto_mem (momentumAvg sentimentAvg : ℚ) :
    0 ≤ calculatedProbCrypto momentumAvg sentimentAvg ∧
    calculatedProbCrypto momentumAvg sentimentAvg ≤ 1 := by
  have hm1 : (0 : ℚ) ≤ momentumProbCrypto momentumAvg := le_clamp _ _ _
  have hm2 : momentumProbCrypto momentumAvg ≤ 1 := clamp_le _ _ _ (by norm_num)
  have hs1 : (0 : ℚ) ≤ clamp sentimentAvg 0 1 := le_clamp _ _ _
  have hs2 : clamp sentimentAvg 0 1 ≤ 1 := clamp_le _ _ _ (by norm_num)
  unfold calculatedProbCrypto
  exact ⟨by nlinarith, by nlinarith⟩

/-- C5: for every alpha candidate the scanner builds, the alpha field equals
calculatedProb minus impliedProb and lies in [-1, 1], because both
probabilities are clamped into [0, 1] (for the non-crypto blend this needs
the up-day fraction to be a fraction, i.e. in [0, 1]). -/
theorem C5_alpha_difference_bounded (symbol : String) (isCrypto : Bool)
    (sentimentAvg momentumAvg dailyReturn avgAbsReturn : ℚ) (upDayFraction : Option ℚ)
    (hf : ∀ f ∈ upDayFraction, 0 ≤ f ∧ f ≤ 1) :
    (mkAlphaCandidate symbol isCrypto sentimentAvg momentumAvg dailyReturn avgAbsReturn upDayFraction).alpha =
      (mkAlphaCandidate symbol isCrypto sentimentAvg momentumAvg dailyReturn avgAbsReturn upDayFraction).calculatedProb -
      (mkAlphaCandidate symbol isCrypto sentimentAvg momentumAvg dailyReturn avgAbsReturn upDayFraction).impliedProb ∧
    -1 ≤ (mkAlphaCandidate symbol isCrypto sentimentAvg momentumAvg dailyReturn avgAbsReturn upDayFraction).alpha ∧
    (mkAlphaCandidate symbol isCrypto sentimentAvg momentumAvg dailyReturn avgAbsReturn upDayFraction).alpha ≤ 1 := by
  have himp : 0 ≤ (mkAlphaCandidate symbol isCrypto sentimentAvg momentumAvg dailyReturn avgAbsReturn upDayFraction).impliedProb ∧
      (mkAlphaCandidate symbol isCrypto sentimentAvg momentumAvg dailyReturn avgAbsReturn upDayFraction).impliedProb ≤ 1 := by
    cases isCrypto with
    | false => simpa [mkAlphaCandidate] using impliedProbStock_mem dailyReturn avgAbsReturn
    | true => refine ⟨by norm_num [mkAlphaCandidate], by norm_num [mkAlphaCandidate]⟩
  have hcalc : 0 ≤ (mkAlphaCandidate symbol isCrypto sentimentAvg momentumAvg dailyReturn avgAbsReturn upDayFraction).calculatedProb ∧
      (mkAlphaCandidate symbol isCrypto sentimentAvg momentumAvg dailyReturn avgAbsReturn upDayFraction).calculatedProb ≤ 1 := by
    cases isCrypto with
    | false => simpa [mkAlphaCandidate] using calculatedProbStock_mem sentimentAvg upDayFraction hf
    | true => simpa [mkAlphaCandidate] using calculatedProbCrypto_mem momentumAvg sentimentAvg
  refine ⟨rfl, ?_, ?_⟩
  · have : (mkAlphaCandidate symbol isCrypto sentimentAvg momentumAvg dailyReturn avgAbsReturn upDayFraction).alpha =
        (mkAlphaCandidate symbol isCrypto sentimentAvg momentumAvg dailyReturn avgAbsReturn upDayFraction).calculatedProb -
        (mkAlphaCandidate symbol isCrypto sentimentAvg momentumAvg dailyReturn avgAbsReturn upDayFraction).impliedProb := rfl
    rw [this]
    linarith [himp.1, himp.2, hcalc.1, hcalc.2]
  · have : (mkAlphaCandidate symbol isCrypto sentimentAvg momentumAvg dailyReturn avgAbsReturn upDayFraction).alpha =
        (mkAlphaCandidate symbol isCrypto sentimentAvg momentumAvg dailyReturn avgAbsReturn upDayFraction).calculatedProb -
        (mkAlphaCandidate symbol isCrypto sentimentAvg momentumAvg dailyReturn avgAbsReturn upDayFraction).impliedProb := rfl
    rw [this]
    linarith [himp.1, himp.2, hcalc.1, hcalc.2]

/-- C5 witness: a concrete non-crypto candidate with an up-day history has
its alpha equal to the probability difference and inside [-1, 1]. -/
theorem C5_witness :
    (∀ f ∈ (some (1/2 : ℚ) : Option ℚ), 0 ≤ f ∧ f ≤ 1) ∧
    ((mkAlphaCandidate "TSLA" false (3/4) 0 (1/25) (1/50) (some (1/2))).alpha =
       (mkAlphaCandidate "TSLA" false (3/4) 0 (1/25) (1/50) (some (1/2))).calculatedProb -
       (mkAlphaCandidate "TSLA" false (3/4) 0 (1/25) (1/50) (some (1/2))).impliedProb ∧
     -1 ≤ (mkAlphaCandidate "TSLA" false (3/4) 0 (1/25) (1/50) (some (1/2))).alpha ∧
     (mkAlphaCandidate "TSLA" false (3/4) 0 (1/25) (1/50) (some (1/2))).alpha ≤ 1) :=
  have hf : ∀ f ∈ (some (1/2 : ℚ) : Option ℚ), 0 ≤ f ∧ f ≤ 1 := by
    intro f hfm
    simp only [Option.mem_def, Option.some.injEq] at hfm
    subst hfm
    norm_num
  ⟨hf, C5_alpha_difference_bounded "TSLA" false (3/4) 0 (1/25) (1/50) (some (1/2)) hf⟩

/-- C6: whenever an external judge verdict exists for a symbol and is not
BUY, the composer vetoes the symbol, whatever the alpha confidence, the
heuristic fallback confidence, or the social confirmation say. -/
theorem C6_non_buy_verdict_vetoes (v : ResearchVerdict)
    (alphaConfidence heuristicConfidence : Option ℚ)
    (confirmation : Option ConfirmationResult) (existingSentiment : ℚ)
    (hv : v.verdict ≠ Verdict.BUY) :
    composeConfidence (some v) alphaConfidence heuristicConfidence confirmation existingSentiment =
      ComposeDecision.veto := by
  unfold composeConfidence
  simp [hv]

/-- C6 witness: a concrete SKIP verdict vetoes even with a maximal alpha
confidence and an agreeing confirmation. -/
theorem C6_witness :
    (⟨"TSLA", Verdict.SKIP, 9/10⟩ : ResearchVerdict).verdict ≠ Verdict.BUY ∧
    composeConfidence (some ⟨"TSLA", Verdict.SKIP, 9/10⟩) (some 1) (some 1)
      (some ⟨1, true⟩) 1 = ComposeDecision.veto :=
  ⟨by decide,
   C6_non_buy_verdict_vetoes ⟨"TSLA", Verdict.SKIP, 9/10⟩ (some 1) (some 1)
     (some ⟨1, true⟩) 1 (by decide)⟩

/-- C7: for every mention age at least zero and positive half-life, the
aggregator time-decay weight is exactly the clamp of the exponential
half-life term to [0.2, 1], so it never falls below 0.2 and never exceeds
1. -/
theorem C7_time_decay_clamped (ageMinutes halfLife : ℝ)
    (ha : 0 ≤ ageMinutes) (hh : 0 < halfLife) :
    timeDecay ageMinutes halfLife = clamp ((1/2 : ℝ) ^ (ageMinutes / halfLife)) (1/5) 1 ∧
    (1/5 : ℝ) ≤ timeDecay ageMinutes halfLife ∧ timeDecay ageMinutes halfLife ≤ 1 :=
  ⟨rfl, le_clamp _ _ _, clamp_le _ _ _ (by norm_num)⟩

/-- C7 witness: a 30-minute-old mention with a 45-minute half-life gets the
clamped exponential weight, bounded by 0.2 and 1. -/
theorem C7_witness :
    (0 : ℝ) ≤ 30 ∧ (0 : ℝ) < 45 ∧
    (timeDecay 30 45 = clamp ((1/2 : ℝ) ^ ((30 : ℝ) / 45)) (1/5) 1 ∧
     (1/5 : ℝ) ≤ timeDecay 30 45 ∧ timeDecay 30 45 ≤ 1) :=
  ⟨by norm_num, by norm_num, C7_time_decay_clamped 30 45 (by norm_num) (by norm_num)⟩

/-- The options view equals the options filter applied after the non-crypto
filter. -/
theorem optionsSignals_as_nested_filter (signals : List Signal) :
    optionsSignals signals =
      List.filter (fun sig => isOptionsSignal sig)
        (signals.filter (fun sig => !sig.isCrypto)) := by
  unfold optionsSignals
  have hcomm : (fun sig : Signal => !sig.isCrypto && isOptionsSignal sig) =
      (fun sig : Signal => isOptionsSignal sig && !sig.isCrypto) :=
    funext fun sig => Bool.and_comm _ _
  rw [hcomm, ← List.filter_filter]

/-- The stocks view equals the non-options filter applied after the
non-crypto filter. -/
theorem stockSignals_as_nested_filter (signals : List Signal) :
    stockSignals signals =
      List.filter (fun sig => !isOptionsSignal sig)
        (signals.filter (fun sig => !sig.isCrypto)) := by
  unfold stockSignals
  have hcomm : (fun sig : Signal => !sig.isCrypto && !isOptionsSignal sig) =
      (fun sig : Signal => !isOptionsSignal sig && !sig.isCrypto) :=
    funext fun sig => Bool.and_comm _ _
  rw [hcomm, ← List.filter_filter]

/-- C8: the crypto, options and stock views the dashboard derives from the
signal list are pairwise disjoint, and their concatenation is a permutation
of the input list — every signal lands in exactly one view. -/
theorem C8_signal_views_partition (signals : List Signal) :
    (∀ sig : Signal,
      ¬(sig ∈ cryptoSignals signals ∧ sig ∈ optionsSignals signals) ∧
      ¬(sig ∈ cryptoSignals signals ∧ sig ∈ stockSignals signals) ∧
      ¬(sig ∈ optionsSignals signals ∧ sig ∈ stockSignals signals)) ∧
    (cryptoSignals signals ++ optionsSignals signals ++ stockSignals signals).Perm signals := by
  constructor
  · intro sig
    refine ⟨?_, ?_, ?_⟩
    · rintro ⟨hc, ho⟩
      have h1 := (List.mem_filter.1 hc).2
      have h2 := (List.mem_filter.1 ho).2
      rw [Bool.and_eq_true] at h2
      simp [h1] at h2
    · rintro ⟨hc, hs⟩
      have h1 := (List.mem_filter.1 hc).2
      have h2 := (List.mem_filter.1 hs).2
      rw [Bool.and_eq_true] at h2
      simp [h1] at h2
    · rintro ⟨ho, hs⟩
      have h2 := (List.mem_filter.1 ho).2
      have h3 := (List.mem_filter.1 hs).2
      rw [Bool.and_eq_true] at h2 h3
      simp [h2.2] at h3
  · have hos : (optionsSignals signals ++ stockSignals signals).Perm
        (signals.filter (fun sig => !sig.isCrypto)) := by
      rw [optionsSignals_as_nested_filter, stockSignals_as_nested_filter]
      exact List.filter_append_perm _ _
    have hcr : (cryptoSignals signals ++ signals.filter (fun sig => !sig.isCrypto)).Perm signals := by
      unfold cryptoSignals
      exact List.filter_append_perm _ _
    rw [List.append_assoc]
    exact (List.Perm.append_left _ hos).trans hcr

/-- Every default layout item has ordered bounds and spans inside them. -/
theorem default_layout_items_bounds :
    ∀ item ∈ DEFAULT_LAYOUT,
      item.minColSpan ≤ item.colSpan ∧ item.colSpan ≤ item.maxColSpan ∧
      item.minRowSpan ≤ item.rowSpan ∧ item.rowSpan ≤ item.maxRowSpan := by
  decide

/-- Normalizing an item never changes its id. -/
theorem normalizeItem_id (stored : List LayoutItem) (item : LayoutItem) :
    (normalizeItem stored item).id = item.id := by
  unfold normalizeItem
  cases hf : stored.find? (fun entry => entry.id == item.id) with
  | none => rfl
  | some m =>
      have hp := List.find?_some hf
      exact eq_of_beq hp

/-- C9: for every input (missing, empty or stored layout), normalizeLayout
returns rows for exactly the eight default panel ids in the default order
(so stored entries with unknown ids are dropped), and as long as each stored
entry has ordered bounds, every returned item has its column and row spans
inside its own bounds. -/
theorem C9_normalizeLayout_ids_and_bounds (layout : Option (List LayoutItem))
    (hb : ∀ m ∈ layout.getD [], m.minColSpan ≤ m.maxColSpan ∧ m.minRowSpan ≤ m.maxRowSpan) :
    (normalizeLayout layout).map LayoutItem.id = DEFAULT_LAYOUT.map LayoutItem.id ∧
    ∀ r ∈ normalizeLayout layout,
      r.minColSpan ≤ r.colSpan ∧ r.colSpan ≤ r.maxColSpan ∧
      r.minRowSpan ≤ r.rowSpan ∧ r.rowSpan ≤ r.maxRowSpan := by
  cases layout with
  | none => exact ⟨rfl, default_layout_items_bounds⟩
  | some stored =>
      by_cases he : stored.isEmpty
      · have hdef : normalizeLayout (some stored) = DEFAULT_LAYOUT := by
          simp [normalizeLayout, he]
        rw [hdef]
        exact ⟨rfl, default_layout_items_bounds⟩
      · have hmap : normalizeLayout (some stored) = DEFAULT_LAYOUT.map (normalizeItem stored) := by
          simp [normalizeLayout, he]
        rw [hmap]
        constructor
        · rw [List.map_map]
          exact List.map_congr_left fun item _ => normalizeItem_id stored item
        · intro r hr
          rcases List.mem_map.1 hr with ⟨item, hitem, rfl⟩
          unfold normalizeItem
          cases hf : stored.find? (fun entry => entry.id == item.id) with
          | none => exact default_layout_items_bounds item hitem
          | some m =>
              have hm : m ∈ stored := List.mem_of_find?_eq_some hf
              have hbm := hb m (by simpa using hm)
              exact ⟨le_clamp _ _ _, clamp_le _ _ _ hbm.1, le_clamp _ _ _, clamp_le _ _ _ hbm.2⟩

/-- C9 witness: a stored layout with an oversized account panel and an
unknown panel id normalizes to the default ids with clamped spans. -/
theorem C9_witness :
    (∀ m ∈ (some [(⟨"account", 99, 1, 2, 6, 2, 6⟩ : LayoutItem),
                  ⟨"bogus", 1, 1, 1, 1, 1, 1⟩] : Option (List LayoutItem)).getD [],
        m.minColSpan ≤ m.maxColSpan ∧ m.minRowSpan ≤ m.maxRowSpan) ∧
    ((normalizeLayout (some [(⟨"account", 99, 1, 2, 6, 2, 6⟩ : LayoutItem),
        ⟨"bogus", 1, 1, 1, 1, 1, 1⟩])).map LayoutItem.id = DEFAULT_LAYOUT.map LayoutItem.id ∧
     ∀ r ∈ normalizeLayout (some [(⟨"account", 99, 1, 2, 6, 2, 6⟩ : LayoutItem),
        ⟨"bogus", 1, 1, 1, 1, 1, 1⟩]),
       r.minColSpan ≤ r.colSpan ∧ r.colSpan ≤ r.maxColSpan ∧
       r.minRowSpan ≤ r.rowSpan ∧ r.rowSpan ≤ r.maxRowSpan) :=
  ⟨by decide,
   C9_normalizeLayout_ids_and_bounds
     (some [⟨"account", 99, 1, 2, 6, 2, 6⟩, ⟨"bogus", 1, 1, 1, 1, 1, 1⟩]) (by decide)⟩

/-- C10: resizing a panel leaves every item with a different id unchanged;
the matching item keeps its id and all four bounds, and its new column and
row spans stay inside those bounds whenever the bounds are ordered. -/
theorem C10_resizePanel_frame (layout : List LayoutItem) (pid : String)
    (deltaCols deltaRows : Int)
    (hb : ∀ it ∈ layout, it.minColSpan ≤ it.maxColSpan ∧ it.minRowSpan ≤ it.maxRowSpan) :
    List.Forall₂ (fun a b =>
      (a.id ≠ pid → b = a) ∧
      (a.id = pid →
        b.id = a.id ∧ b.minColSpan = a.minColSpan ∧ b.maxColSpan = a.maxColSpan ∧
        b.minRowSpan = a.minRowSpan ∧ b.maxRowSpan = a.maxRowSpan ∧
        a.minColSpan ≤ b.colSpan ∧ b.colSpan ≤ a.maxColSpan ∧
        a.minRowSpan ≤ b.rowSpan ∧ b.rowSpan ≤ a.maxRowSpan))
      layout (resizePanel layout pid deltaCols deltaRows) := by
  unfold resizePanel
  rw [List.forall₂_map_right_iff, List.forall₂_same]
  intro it hit
  unfold resizeItem
  by_cases hid : it.id = pid
  · rw [if_neg (by simp [hid])]
    exact ⟨fun hne => absurd hid hne,
      fun _ => ⟨rfl, rfl, rfl, rfl, rfl,
        le_clamp _ _ _, clamp_le _ _ _ (hb it hit).1,
        le_clamp _ _ _, clamp_le _ _ _ (hb it hit).2⟩⟩
  · rw [if_pos hid]
    exact ⟨fun _ => rfl, fun he => absurd he hid⟩

/-- C10 witness: growing the width of a concrete account panel past its
maximum leaves the other panel untouched and clamps the span. -/
theorem C10_witness :
    (∀ it ∈ [(⟨"account", 3, 3, 2, 6, 2, 6⟩ : LayoutItem), ⟨"positions", 5, 3, 3, 8, 2, 6⟩],
        it.minColSpan ≤ it.maxColSpan ∧ it.minRowSpan ≤ it.maxRowSpan) ∧
    List.Forall₂ (fun a b =>
      (a.id ≠ "account" → b = a) ∧
      (a.id = "account" →
        b.id = a.id ∧ b.minColSpan = a.minColSpan ∧ b.maxColSpan = a.maxColSpan ∧
        b.minRowSpan = a.minRowSpan ∧ b.maxRowSpan = a.maxRowSpan ∧
        a.minColSpan ≤ b.colSpan ∧ b.colSpan ≤ a.maxColSpan ∧
        a.minRowSpan ≤ b.rowSpan ∧ b.rowSpan ≤ a.maxRowSpan))
      [(⟨"account", 3, 3, 2, 6, 2, 6⟩ : LayoutItem), ⟨"positions", 5, 3, 3, 8, 2, 6⟩]
      (resizePanel [⟨"account", 3, 3, 2, 6, 2, 6⟩, ⟨"positions", 5, 3, 3, 8, 2, 6⟩] "account" 10 (-1)) :=
  ⟨by decide,
   C10_resizePanel_frame [⟨"account", 3, 3, 2, 6, 2, 6⟩, ⟨"positions", 5, 3, 3, 8, 2, 6⟩]
     "account" 10 (-1) (by decide)⟩

end Mahoraga
